import Mathlib

/-!
Verification of the transcription parser (src/core/transcription_parser.py).

JSON values are embedded as an inductive type; Python floats are modelled as
exact rationals (every timestamp arithmetic step relevant to the claims,
division of 1500 and 2500 by 1000, is exactly representable in binary64, so
the rational model agrees with the float semantics on all claim instances).
Python exceptions are modelled with an explicit error type, and the effectful
parser code (logging to an injected sink, reading the caller-supplied JSON
object) is written once as a program in a small effect language and
interpreted twice: a pure interpreter giving the result, and a stateful one
threading the caller data object and an arbitrary log sink.
-/

/-- Python exception classes that the parser code can raise or catch. -/
inductive PyExc : Type where
  | valueError
  | typeError
  | keyError
  | indexError
  | attributeError
deriving DecidableEq

/-- JSON values as delivered to the parser (Python dict/list/str/float/bool/None).
Python dicts coming from json.load have unique keys, modelled as association
lists looked up by first occurrence. -/
inductive Json : Type where
  | null : Json
  | bool : Bool → Json
  | num : ℚ → Json
  | str : String → Json
  | arr : List Json → Json
  | obj : List (String × Json) → Json

/-- First-occurrence lookup in an association list (Python dict access). -/
def lookupJ : List (String × Json) → String → Option Json
  | [], _ => none
  | (k, v) :: rest, key => if k = key then some v else lookupJ rest key

/-- Python truthiness of a JSON value. -/
def jTruthy : Json → Bool
  | Json.null => false
  | Json.bool b => b
  | Json.num q => q ≠ 0
  | Json.str s => s ≠ ""
  | Json.arr xs => !xs.isEmpty
  | Json.obj kvs => !kvs.isEmpty

/-- Whether the value models Python None. -/
def Json.isNull : Json → Bool
  | Json.null => true
  | _ => false

/-- isinstance(x, list). -/
def jIsArr : Json → Bool
  | Json.arr _ => true
  | _ => false

/-- Underlying list of an array value (only used under a jIsArr guard). -/
def asArr : Json → List Json
  | Json.arr xs => xs
  | _ => []

/-- Total variant of dict.get: on a dict, the value at the key or the default;
on any other value the default (the effectful dGet below raises instead). -/
def jGetD (j : Json) (key : String) (dflt : Json) : Json :=
  match j with
  | Json.obj kvs => (lookupJ kvs key).getD dflt
  | _ => dflt

/-- x.get(key, dflt): AttributeError on a non-dict receiver. -/
def dGet (j : Json) (key : String) (dflt : Json) : Except PyExc Json :=
  match j with
  | Json.obj _ => Except.ok (jGetD j key dflt)
  | _ => Except.error PyExc.attributeError

/-- x[key] with a string literal key, as used by the source. -/
def subscriptStr (j : Json) (key : String) : Except PyExc Json :=
  match j with
  | Json.obj kvs =>
      match lookupJ kvs key with
      | some v => Except.ok v
      | none => Except.error PyExc.keyError
  | _ => Except.error PyExc.typeError

/-- x[0], as used on the Deepgram channel and alternative lists. -/
def jIdx0 : Json → Except PyExc Json
  | Json.arr [] => Except.error PyExc.indexError
  | Json.arr (x :: _) => Except.ok x
  | Json.str s =>
      match s.toList with
      | [] => Except.error PyExc.indexError
      | c :: _ => Except.ok (Json.str (String.singleton c))
  | Json.obj _ => Except.error PyExc.keyError
  | _ => Except.error PyExc.typeError

/-- len(x). -/
def jLen : Json → Except PyExc Nat
  | Json.str s => Except.ok s.length
  | Json.arr xs => Except.ok xs.length
  | Json.obj kvs => Except.ok kvs.length
  | _ => Except.error PyExc.typeError

/-- Iteration, for x in j: lists yield elements, strings their characters,
dicts their keys; other values raise TypeError. -/
def pyIter : Json → Except PyExc (List Json)
  | Json.arr xs => Except.ok xs
  | Json.str s => Except.ok (s.toList.map fun c => Json.str (String.singleton c))
  | Json.obj kvs => Except.ok (kvs.map fun kv => Json.str kv.1)
  | _ => Except.error PyExc.typeError

/-- needle is a leading segment of hay. -/
def leadEq : List Char → List Char → Bool
  | [], _ => true
  | _ :: _, [] => false
  | a :: as, b :: bs => a = b && leadEq as bs

/-- needle occurs contiguously in hay. -/
def occursIn (needle : List Char) : List Char → Bool
  | [] => leadEq needle []
  | c :: r => leadEq needle (c :: r) || occursIn needle r

/-- key in j, for the string literal needles of the source: key membership for
dicts, element equality for lists (a string equals only an equal string),
substring test for strings, TypeError otherwise. -/
def pyInKey (key : String) : Json → Except PyExc Bool
  | Json.obj kvs => Except.ok (lookupJ kvs key).isSome
  | Json.arr xs =>
      Except.ok (xs.any fun j =>
        match j with
        | Json.str t => t = key
        | _ => false)
  | Json.str s => Except.ok (occursIn key.toList s.toList)
  | _ => Except.error PyExc.typeError

/-- j == "lit" for a string literal: Python equality of a value with a string
is true only for an equal string. -/
def pyEqStr (j : Json) (lit : String) : Bool :=
  match j with
  | Json.str t => t = lit
  | _ => false

/-- Decimal digits of a natural number, fuel-driven so the definition is
structural and reduces by rfl; with fuel n + 1 the result is never empty. -/
def natDigsAux : Nat → Nat → List Char
  | 0, _ => []
  | fuel + 1, n =>
      if n < 10 then [Nat.digitChar n]
      else natDigsAux fuel (n / 10) ++ [Nat.digitChar (n % 10)]

/-- Decimal rendering of a natural number. -/
def natRepr (n : Nat) : String := String.mk (natDigsAux (n + 1) n)

/-- Decimal rendering of an integer. -/
def intRepr (i : Int) : String :=
  if i < 0 then "-" ++ natRepr i.natAbs else natRepr i.natAbs

/-- Rendering of the rational model of a Python number. The exact digit
sequence Python would print for a non-integer float is not reproduced (no
claim depends on it); integers render as their decimal digits. -/
def ratRepr (q : ℚ) : String :=
  if q.den = 1 then intRepr q.num else intRepr q.num ++ "/" ++ natRepr q.den

/-- str(x). Providers deliver word texts as strings, for which this is the
identity; container reprs are abbreviated as no claim inspects them. -/
def pyStr : Json → String
  | Json.null => "None"
  | Json.bool true => "True"
  | Json.bool false => "False"
  | Json.num q => ratRepr q
  | Json.str s => s
  | Json.arr _ => "[list]"
  | Json.obj _ => "<dict>"

/-- Leading decimal digits of a character list, as digit values, with the rest. -/
def takeDigits : List Char → List Nat × List Char
  | [] => ([], [])
  | c :: r =>
      if c.isDigit then
        match takeDigits r with
        | (ds, rest) => ((c.toNat - 48) :: ds, rest)
      else ([], c :: r)

/-- Value of a digit list read in base 10. -/
def digitsVal (ds : List Nat) : Nat := ds.foldl (fun a d => 10 * a + d) 0

/-- Whitespace accepted around a Python float literal string. -/
def isPyWs (c : Char) : Bool :=
  c = ' ' || c = '\t' || c = '\n' || c = '\r' || c = '\x0b' || c = '\x0c'

/-- Parse a stripped float literal: sign, integer and fractional digits,
optional exponent. Python additionally accepts inf, nan and digit-group
underscores, which this model rejects; no claim involves such inputs. -/
def pyFloatCore (cs : List Char) : Option ℚ :=
  let sgnRest : ℚ × List Char :=
    match cs with
    | '+' :: r => (1, r)
    | '-' :: r => (-1, r)
    | r => (1, r)
  match takeDigits sgnRest.2 with
  | (ip, cs2) =>
    let fpRest : List Nat × List Char :=
      match cs2 with
      | '.' :: r => takeDigits r
      | r => ([], r)
    match fpRest with
    | (fp, cs3) =>
      if ip.isEmpty && fp.isEmpty then none
      else
        let mant : ℚ := (digitsVal ip : ℚ) + (digitsVal fp : ℚ) / ((10 : ℚ) ^ fp.length)
        match cs3 with
        | [] => some (sgnRest.1 * mant)
        | 'e' :: r =>
            match
              (match r with
               | '+' :: r2 => ((1 : Int), r2)
               | '-' :: r2 => ((-1 : Int), r2)
               | r2 => ((1 : Int), r2)) with
            | (esgn, r1) =>
              match takeDigits r1 with
              | (ed, r2) =>
                if ed.isEmpty || !r2.isEmpty then none
                else some (sgnRest.1 * mant * (10 : ℚ) ^ (esgn * (digitsVal ed : Int)))
        | 'E' :: r =>
            match
              (match r with
               | '+' :: r2 => ((1 : Int), r2)
               | '-' :: r2 => ((-1 : Int), r2)
               | r2 => ((1 : Int), r2)) with
            | (esgn, r1) =>
              match takeDigits r1 with
              | (ed, r2) =>
                if ed.isEmpty || !r2.isEmpty then none
                else some (sgnRest.1 * mant * (10 : ℚ) ^ (esgn * (digitsVal ed : Int)))
        | _ => none

/-- float(s) for a string argument: surrounding whitespace stripped, then the
literal grammar above; failure is a ValueError. -/
def pyFloatStr (s : String) : Option ℚ :=
  pyFloatCore (((s.toList.dropWhile isPyWs).reverse.dropWhile isPyWs).reverse)

/-- float(x): numbers pass through, booleans coerce to 0 or 1, strings are
parsed (ValueError on failure), anything else raises TypeError. -/
def pyFloat : Json → Except PyExc ℚ
  | Json.num q => Except.ok q
  | Json.bool b => Except.ok (if b then 1 else 0)
  | Json.str s =>
      match pyFloatStr s with
      | some q => Except.ok q
      | none => Except.error PyExc.valueError
  | _ => Except.error PyExc.typeError

/-- Modelled from the spec: the data entity module (core/data_models.py) is
not in src, only its importer. Timestamped Word per section 3 of the spec:
text span with start and end time in seconds, optional diarized speaker,
confidence defaulting to 1. The constructor itself stores coerced values;
the str and float coercions happen at the adapter call sites as in the
source, and their failures are the construction failures the spec describes. -/
structure TimestampedWord : Type where
  text : String
  start_time : ℚ
  end_time : ℚ
  speaker_id : Option String
  confidence : ℚ

/-- Modelled from the spec: Parsed Transcription per section 3 of the spec:
ordered word list, full text, best-effort language code and optional provider
metadata. The adapters pass provider-supplied JSON values through for the
full text, language and metadata fields, so those fields hold JSON values
(null models an absent value). -/
structure ParsedTranscription : Type where
  words : List TimestampedWord
  full_text : Json
  language_code : Json
  soniox_metadata : Json

/-- str(speaker) if speaker else None, as at each construction site. -/
def speakerOpt (j : Json) : Option String :=
  if jTruthy j then some (pyStr j) else none

/-- Space-join of word texts, the derived full text of every adapter. -/
def joinTexts (ws : List TimestampedWord) : String :=
  String.intercalate " " (ws.map TimestampedWord.text)

/-- The effect language of the parser module: pure results, lifted fallible
primitives, a log statement (the log method of TranscriptionParser, lines
24-29), and exception handlers (the try and except blocks). An adapter or the
dispatcher is a program in this language; interpreters are below. -/
inductive Prog : Type → Type 1 where
  | pure {α : Type} : α → Prog α
  | of {α : Type} : Except PyExc α → Prog α
  | log : String → Prog Unit
  | bind {α β : Type} : Prog α → (α → Prog β) → Prog β
  | pcatch {α : Type} : (PyExc → Bool) → Prog α → Prog α → Prog α

instance : Monad Prog where
  pure := Prog.pure
  bind := Prog.bind

/-- Lift a fallible primitive into the effect language. -/
def liftE {α : Type} (e : Except PyExc α) : Prog α := Prog.of e

/-- A Python for-loop accumulating over a list. -/
def progFold {β : Type} (f : β → Json → Prog β) (b : β) : List Json → Prog β
  | [] => Prog.pure b
  | x :: xs => Prog.bind (f b x) fun b2 => progFold f b2 xs

/-- An injected log sink: a state type and an emit action, per section 4.1 of
the spec (an injected sink, or the console fallback when none is given). -/
structure Sink : Type 1 where
  St : Type
  emit : St → String → St

/-- The fallback console emitter, collecting printed lines. -/
def consoleSink : Sink := ⟨List String, fun s m => s ++ [m]⟩

/-- Effectful interpreter: runs a program over the caller data object (first
state component, untouched by every construct) and the sink state (second
component, advanced by emit at each log). An uncaught exception aborts the
program, keeping the state reached so far. -/
def runPM (k : Sink) : {α : Type} → Prog α → Json × k.St → Except PyExc α × (Json × k.St)
  | _, Prog.pure a, st => (Except.ok a, st)
  | _, Prog.of e, st => (e, st)
  | _, Prog.log m, (x, s) => (Except.ok (), (x, k.emit s m))
  | _, Prog.bind p f, st =>
      match runPM k p st with
      | (Except.ok a, st2) => runPM k (f a) st2
      | (Except.error e, st2) => (Except.error e, st2)
  | _, Prog.pcatch c p h, st =>
      match runPM k p st with
      | (Except.error e, st2) => if c e then runPM k h st2 else (Except.error e, st2)
      | (Except.ok a, st2) => (Except.ok a, st2)

/-- Pure interpreter: the result of a program, which reads no state. -/
def runP : {α : Type} → Prog α → Except PyExc α
  | _, Prog.pure a => Except.ok a
  | _, Prog.of e => e
  | _, Prog.log _ => Except.ok ()
  | _, Prog.bind p f =>
      match runP p with
      | Except.ok a => runP (f a)
      | Except.error e => Except.error e
  | _, Prog.pcatch c p h =>
      match runP p with
      | Except.error e => if c e then runP h else Except.error e
      | Except.ok a => Except.ok a

/-- Under any sink and any initial state, the result component of a run is the
pure result: no log sink can influence what a program computes. -/
theorem runPM_fst (k : Sink) : ∀ {α : Type} (p : Prog α) (st : Json × k.St),
    (runPM k p st).1 = runP p := by
  intro α p
  induction p with
  | pure a => intro st; rfl
  | of e => intro st; rfl
  | log m => intro st; cases st; rfl
  | bind p f ihp ihf =>
      intro st
      have h := ihp st
      simp only [runPM, runP]
      cases hp : runPM k p st with
      | mk r st2 =>
          rw [hp] at h
          cases r with
          | ok a => simp only [← h]; exact ihf a st2
          | error e => simp only [← h]
  | pcatch c p h ihp ihh =>
      intro st
      have hp0 := ihp st
      simp only [runPM, runP]
      cases hp : runPM k p st with
      | mk r st2 =>
          rw [hp] at hp0
          cases r with
          | ok a => simp only [← hp0]
          | error e =>
              simp only [← hp0]
              by_cases hc : c e = true
              · simp only [hc, if_true]; exact ihh st2
              · simp only [hc, Bool.false_eq_true, if_false]

/-- Under any sink, every program leaves the caller data object component of
the state unchanged: the parser never mutates its input. -/
theorem runPM_data (k : Sink) : ∀ {α : Type} (p : Prog α) (st : Json × k.St),
    ((runPM k p st).2).1 = st.1 := by
  intro α p
  induction p with
  | pure a => intro st; rfl
  | of e => intro st; rfl
  | log m => intro st; cases st; rfl
  | bind p f ihp ihf =>
      intro st
      simp only [runPM]
      cases hp : runPM k p st with
      | mk r st2 =>
          have h2 : st2.1 = st.1 := by
            have := ihp st; rw [hp] at this; exact this
          cases r with
          | ok a => rw [← h2]; exact ihf a st2
          | error e => exact h2
  | pcatch c p h ihp ihh =>
      intro st
      simp only [runPM]
      cases hp : runPM k p st with
      | mk r st2 =>
          have h2 : st2.1 = st.1 := by
            have := ihp st; rw [hp] at this; exact this
          cases r with
          | ok a => exact h2
          | error e =>
              by_cases hc : c e = true
              · simp only [hc, if_true]; rw [← h2]; exact ihh st2
              · simp only [hc, if_false]; exact h2

/-- The except ValueError clauses inside the adapter loops. -/
def isValueError : PyExc → Bool
  | PyExc.valueError => true
  | _ => false

/-- The except (KeyError, IndexError) clause of the Deepgram adapter. -/
def isKeyOrIndex : PyExc → Bool
  | PyExc.keyError => true
  | PyExc.indexError => true
  | _ => false

/-- The except (KeyError, IndexError, TypeError) clauses of the Soniox and
ElevenLabs API adapters. -/
def isKeyIndexType : PyExc → Bool
  | PyExc.keyError => true
  | PyExc.indexError => true
  | PyExc.typeError => true
  | _ => false

theorem runP_pure {α : Type} (a : α) : runP (Prog.pure a) = Except.ok a := rfl

theorem runP_pureI {α : Type} (a : α) : runP (pure a : Prog α) = Except.ok a := rfl

theorem runP_of {α : Type} (e : Except PyExc α) : runP (Prog.of e) = e := rfl

theorem runP_liftE {α : Type} (e : Except PyExc α) : runP (liftE e) = e := rfl

theorem runP_log (m : String) : runP (Prog.log m) = Except.ok () := rfl

theorem runP_bind {α β : Type} (p : Prog α) (f : α → Prog β) :
    runP (Prog.bind p f) =
      match runP p with
      | Except.ok a => runP (f a)
      | Except.error e => Except.error e := by rw [runP]

theorem runP_bindI {α β : Type} (p : Prog α) (f : α → Prog β) :
    runP (p >>= f) =
      match runP p with
      | Except.ok a => runP (f a)
      | Except.error e => Except.error e := runP_bind p f

theorem runP_bind_ok {α β : Type} {p : Prog α} {a : α} (f : α → Prog β)
    (h : runP p = Except.ok a) : runP (p >>= f) = runP (f a) := by
  rw [runP_bindI, h]

theorem runP_bind_err {α β : Type} {p : Prog α} {e : PyExc} (f : α → Prog β)
    (h : runP p = Except.error e) : runP (p >>= f) = Except.error e := by
  rw [runP_bindI, h]

theorem runP_pcatch {α : Type} (c : PyExc → Bool) (p h : Prog α) :
    runP (Prog.pcatch c p h) =
      match runP p with
      | Except.error e => if c e then runP h else Except.error e
      | Except.ok a => Except.ok a := by rw [runP]

theorem runP_seq {α : Type} (m : String) (p : Prog α) :
    runP (Prog.log m >>= fun _ => p) = runP p := by rw [runP_bindI, runP_log]

theorem runP_fold_nil {β : Type} (f : β → Json → Prog β) (b : β) :
    runP (progFold f b []) = Except.ok b := rfl

theorem runP_fold_cons {β : Type} (f : β → Json → Prog β) (b : β) (x : Json) (xs : List Json) :
    runP (progFold f b (x :: xs)) =
      match runP (f b x) with
      | Except.ok b2 => runP (progFold f b2 xs)
      | Except.error e => Except.error e := by rw [progFold, runP]

/-- Loop body of _parse_elevenlabs (source lines 64-75): alias lookup of
text/word and speaker_id/speaker, skip on a missing field or a ValueError
from the float coercions, otherwise append the constructed word. -/
def elevenStep (acc : List TimestampedWord) (wi : Json) : Prog (List TimestampedWord) := do
  let wordAlt ← liftE (dGet wi "word" Json.null)
  let text ← liftE (dGet wi "text" wordAlt)
  let start ← liftE (dGet wi "start" Json.null)
  let stop ← liftE (dGet wi "end" Json.null)
  let speakerAlt ← liftE (dGet wi "speaker" Json.null)
  let speaker ← liftE (dGet wi "speaker_id" speakerAlt)
  if !text.isNull && !start.isNull && !stop.isNull then
    Prog.pcatch isValueError
      (do
        let st ← liftE (pyFloat start)
        let en ← liftE (pyFloat stop)
        pure (acc ++ [⟨pyStr text, st, en, speakerOpt speaker, 1⟩]))
      (do
        Prog.log "warning skipping elevenlabs entry with invalid timestamp"
        pure acc)
  else do
    Prog.log "warning skipping incomplete elevenlabs entry"
    pure acc

/-- _parse_elevenlabs (source lines 61-80). -/
def parse_elevenlabs (d : Json) : Prog (Option ParsedTranscription) := do
  let wordsJ ← liftE (dGet d "words" (Json.arr []))
  let entries ← liftE (pyIter wordsJ)
  let pw ← progFold elevenStep [] entries
  let ft0 ← liftE (dGet d "text" (Json.str ""))
  let fullText := if !jTruthy ft0 && !pw.isEmpty then Json.str (joinTexts pw) else ft0
  let langAlt ← liftE (dGet d "language" Json.null)
  let lang ← liftE (dGet d "language_code" langAlt)
  pure (some ⟨pw, fullText, lang, Json.null⟩)

/-- Loop body of _parse_whisper (source lines 101-111): like elevenlabs but
the word field is preferred over text and there is no speaker. -/
def whisperStep (acc : List TimestampedWord) (wi : Json) : Prog (List TimestampedWord) := do
  let textAlt ← liftE (dGet wi "text" Json.null)
  let text ← liftE (dGet wi "word" textAlt)
  let start ← liftE (dGet wi "start" Json.null)
  let stop ← liftE (dGet wi "end" Json.null)
  if !text.isNull && !start.isNull && !stop.isNull then
    Prog.pcatch isValueError
      (do
        let st ← liftE (pyFloat start)
        let en ← liftE (pyFloat stop)
        pure (acc ++ [⟨pyStr text, st, en, none, 1⟩]))
      (do
        Prog.log "warning skipping whisper entry with invalid timestamp"
        pure acc)
  else do
    Prog.log "warning skipping incomplete whisper entry"
    pure acc

/-- Word-list collection of _parse_whisper (source lines 85-92): top level
words if present and a list, otherwise flattened segments[].words[]. -/
def whisperCollect (d : Json) : Prog (List Json) := do
  let hasW ← liftE (pyInKey "words" d)
  let top ← (if hasW then do
      let w ← liftE (subscriptStr d "words")
      pure (if jIsArr w then some w else none)
    else pure none)
  match top with
  | some w => pure (asArr w)
  | none => do
    let hasS ← liftE (pyInKey "segments" d)
    let segsOk ← (if hasS then do
        let sj ← liftE (subscriptStr d "segments")
        pure (if jIsArr sj then some sj else none)
      else pure none)
    match segsOk with
    | some _ => do
        let segs2 ← liftE (dGet d "segments" (Json.arr []))
        let segList ← liftE (pyIter segs2)
        progFold
          (fun acc seg => do
            let hw ← liftE (pyInKey "words" seg)
            if hw then do
              let sw ← liftE (subscriptStr seg "words")
              pure (if jIsArr sw then acc ++ asArr sw else acc)
            else pure acc)
          [] segList
    | none => pure []

/-- _parse_whisper (source lines 82-116). -/
def parse_whisper (d : Json) : Prog (Option ParsedTranscription) := do
  let wwl ← whisperCollect d
  if wwl.isEmpty then do
    let fto ← liftE (dGet d "text" Json.null)
    if jTruthy fto then do
      let lang ← liftE (dGet d "language" Json.null)
      pure (some ⟨[], fto, lang, Json.null⟩)
    else do
      Prog.log "error whisper json has no word list and no top level text"
      pure none
  else do
    let pw ← progFold whisperStep [] wwl
    let ft0 ← liftE (dGet d "text" (Json.str ""))
    let fullText := if !jTruthy ft0 && !pw.isEmpty then Json.str (joinTexts pw) else ft0
    let lang ← liftE (dGet d "language" Json.null)
    pure (some ⟨pw, fullText, lang, Json.null⟩)

/-- Loop body of _parse_deepgram (source lines 137-148). The text lookup at
line 138 is word_info.get with first key word and the punctuated_word value
only as the default, so the plain word field wins when both are present. -/
def deepgramStep (acc : List TimestampedWord) (wi : Json) : Prog (List TimestampedWord) := do
  let punct ← liftE (dGet wi "punctuated_word" Json.null)
  let text ← liftE (dGet wi "word" punct)
  let start ← liftE (dGet wi "start" Json.null)
  let stop ← liftE (dGet wi "end" Json.null)
  let speaker ← liftE (dGet wi "speaker" Json.null)
  if !text.isNull && !start.isNull && !stop.isNull then
    Prog.pcatch isValueError
      (do
        let st ← liftE (pyFloat start)
        let en ← liftE (pyFloat stop)
        pure (acc ++ [⟨pyStr text, st, en, speakerOpt speaker, 1⟩]))
      (do
        Prog.log "warning skipping deepgram entry with invalid timestamp"
        pure acc)
  else do
    Prog.log "warning skipping incomplete deepgram entry"
    pure acc

/-- Body of _parse_deepgram inside its try (source lines 120-153): the nested
structure check with short-circuit evaluation, the transcript-only fallback,
and the word loop. -/
def deepgramBody (d : Json) : Prog (Option ParsedTranscription) := do
  let res ← liftE (dGet d "results" Json.null)
  if !jTruthy res then do
    Prog.log "error deepgram json structure not as expected"
    pure none
  else do
    let res2 ← liftE (subscriptStr d "results")
    let chs ← liftE (dGet res2 "channels" Json.null)
    if !jTruthy chs then do
      Prog.log "error deepgram json structure not as expected"
      pure none
    else do
      let chs2 ← liftE (subscriptStr res2 "channels")
      if !(jIsArr chs2 && decide (0 < (asArr chs2).length)) then do
        Prog.log "error deepgram json structure not as expected"
        pure none
      else do
        let ch0 ← liftE (jIdx0 chs2)
        let alts ← liftE (dGet ch0 "alternatives" Json.null)
        if !jTruthy alts then do
          Prog.log "error deepgram json structure not as expected"
          pure none
        else do
          let alts2 ← liftE (subscriptStr ch0 "alternatives")
          if !(jIsArr alts2 && decide (0 < (asArr alts2).length)) then do
            Prog.log "error deepgram json structure not as expected"
            pure none
          else do
            let alternative ← liftE (jIdx0 alts2)
            let hw ← liftE (pyInKey "words" alternative)
            let wordsOk ← (if hw then do
                let w ← liftE (subscriptStr alternative "words")
                pure (jIsArr w)
              else pure false)
            if !wordsOk then do
              let fto ← liftE (dGet alternative "transcript" (Json.str ""))
              if jTruthy fto then do
                let lang ← liftE (dGet ch0 "detected_language" Json.null)
                pure (some ⟨[], fto, lang, Json.null⟩)
              else do
                Prog.log "error deepgram json has no word list and no transcript"
                pure none
            else do
              let wj ← liftE (dGet alternative "words" (Json.arr []))
              let entries ← liftE (pyIter wj)
              let pw ← progFold deepgramStep [] entries
              let ft0 ← liftE (dGet alternative "transcript" (Json.str ""))
              let fullText := if !jTruthy ft0 && !pw.isEmpty then Json.str (joinTexts pw) else ft0
              let lang ← liftE (dGet ch0 "detected_language" Json.null)
              pure (some ⟨pw, fullText, lang, Json.null⟩)

/-- _parse_deepgram (source lines 118-156): the body against an except clause
for KeyError and IndexError that logs and returns None. -/
def parse_deepgram (d : Json) : Prog (Option ParsedTranscription) :=
  Prog.pcatch isKeyOrIndex (deepgramBody d)
    (do
      Prog.log "error key or index while parsing deepgram json"
      pure none)

/-- Loop body of _parse_assemblyai (source lines 177-189): text only from the
text field, millisecond timestamps divided by 1000 after coercion. -/
def assemblyStep (acc : List TimestampedWord) (wi : Json) : Prog (List TimestampedWord) := do
  let text ← liftE (dGet wi "text" Json.null)
  let startMs ← liftE (dGet wi "start" Json.null)
  let endMs ← liftE (dGet wi "end" Json.null)
  let speaker ← liftE (dGet wi "speaker" Json.null)
  if !text.isNull && !startMs.isNull && !endMs.isNull then
    Prog.pcatch isValueError
      (do
        let st ← liftE (pyFloat startMs)
        let en ← liftE (pyFloat endMs)
        pure (acc ++ [⟨pyStr text, st / 1000, en / 1000, speakerOpt speaker, 1⟩]))
      (do
        Prog.log "warning skipping assemblyai entry with invalid timestamp"
        pure acc)
  else do
    Prog.log "warning skipping incomplete assemblyai entry"
    pure acc

/-- Word-list collection of _parse_assemblyai (source lines 161-168):
top level words if present and a list, else flattened utterances[].words[]
(line 166 subscripts data with the utterances key directly). -/
def assemblyCollect (d : Json) : Prog (List Json) := do
  let hasW ← liftE (pyInKey "words" d)
  let top ← (if hasW then do
      let w ← liftE (subscriptStr d "words")
      pure (if jIsArr w then some w else none)
    else pure none)
  match top with
  | some w => pure (asArr w)
  | none => do
    let hasU ← liftE (pyInKey "utterances" d)
    let uttsOk ← (if hasU then do
        let uj ← liftE (subscriptStr d "utterances")
        pure (if jIsArr uj then some uj else none)
      else pure none)
    match uttsOk with
    | some uj => do
        let uttList ← liftE (pyIter uj)
        progFold
          (fun acc utt => do
            let hw ← liftE (pyInKey "words" utt)
            if hw then do
              let uw ← liftE (subscriptStr utt "words")
              pure (if jIsArr uw then acc ++ asArr uw else acc)
            else pure acc)
          [] uttList
    | none => pure []

/-- _parse_assemblyai (source lines 158-194). -/
def parse_assemblyai (d : Json) : Prog (Option ParsedTranscription) := do
  let wwl ← assemblyCollect d
  if wwl.isEmpty then do
    let fto ← liftE (dGet d "text" Json.null)
    if jTruthy fto then do
      let lang ← liftE (dGet d "language_code" Json.null)
      pure (some ⟨[], fto, lang, Json.null⟩)
    else do
      Prog.log "error assemblyai json has no word list and no top level text"
      pure none
  else do
    let pw ← progFold assemblyStep [] wwl
    let ft0 ← liftE (dGet d "text" (Json.str ""))
    let fullText := if !jTruthy ft0 && !pw.isEmpty then Json.str (joinTexts pw) else ft0
    let lang ← liftE (dGet d "language_code" Json.null)
    pure (some ⟨pw, fullText, lang, Json.null⟩)

/-- Loop body of _parse_soniox (source lines 215-245): read all fields first,
skip tokens explicitly marked non-final, require truthy text and both
millisecond timestamps, divide by 1000, confidence defaults to 1 when the
field is None; a ValueError skips the token. -/
def sonioxStep (acc : List TimestampedWord) (token : Json) : Prog (List TimestampedWord) := do
  let text ← liftE (dGet token "text" (Json.str ""))
  let startMs ← liftE (dGet token "start_ms" Json.null)
  let endMs ← liftE (dGet token "end_ms" Json.null)
  let speaker ← liftE (dGet token "speaker" Json.null)
  let confidence ← liftE (dGet token "confidence" Json.null)
  let isFin ← liftE (dGet token "is_final" (Json.bool false))
  let hasFin ← liftE (pyInKey "is_final" token)
  if hasFin && !jTruthy isFin then pure acc
  else if jTruthy text && !startMs.isNull && !endMs.isNull then
    Prog.pcatch isValueError
      (do
        let st ← liftE (pyFloat startMs)
        let en ← liftE (pyFloat endMs)
        let cf ← liftE (if confidence.isNull then Except.ok (1 : ℚ) else pyFloat confidence)
        pure (acc ++ [⟨pyStr text, st / 1000, en / 1000, speakerOpt speaker, cf⟩]))
      (do
        Prog.log "warning skipping soniox token with invalid timestamp"
        pure acc)
  else pure acc

/-- Language detection of _parse_soniox (source lines 253-259): the language
value of the first token carrying a language key, None otherwise. -/
def sonioxLang : List Json → Prog Json
  | [] => Prog.pure Json.null
  | t :: ts => do
      let h ← liftE (pyInKey "language" t)
      if h then liftE (subscriptStr t "language")
      else sonioxLang ts

/-- Body of _parse_soniox inside its try (source lines 199-266): missing or
falsy tokens yield an empty transcript when status is completed and None
otherwise; else the token loop, derived full text, language detection and
metadata pass-through. -/
def sonioxBody (d : Json) : Prog (Option ParsedTranscription) := do
  let tokens ← liftE (dGet d "tokens" (Json.arr []))
  if !jTruthy tokens then do
    Prog.log "warning soniox json has no tokens list"
    let st ← liftE (dGet d "status" Json.null)
    if pyEqStr st "completed" then do
      Prog.log "status completed with no tokens treated as empty transcription"
      pure (some ⟨[], Json.str "", Json.null, Json.null⟩)
    else pure none
  else do
    let tokList ← liftE (pyIter tokens)
    let pw ← progFold sonioxStep [] tokList
    let ft0 ← liftE (dGet d "text" (Json.str ""))
    let fullText := if !jTruthy ft0 && !pw.isEmpty then Json.str (joinTexts pw) else ft0
    let tokList2 ← liftE (pyIter tokens)
    let lang ← sonioxLang tokList2
    Prog.log "soniox parse finished"
    let meta ← liftE (dGet d "soniox_metadata" Json.null)
    pure (some ⟨pw, fullText, lang, meta⟩)

/-- _parse_soniox (source lines 196-271): the body against an except clause
for KeyError, IndexError and TypeError that logs and returns None. -/
def parse_soniox (d : Json) : Prog (Option ParsedTranscription) :=
  Prog.pcatch isKeyIndexType (sonioxBody d)
    (do
      Prog.log "error exception while parsing soniox json"
      pure none)

/-- Loop body of _parse_elevenlabs_api (source lines 283-305): truthiness
based alias lookups for text and speaker, audio_event entries fall through
the no-op type check and are appended like any other word; entries with a
falsy text or a missing timestamp are silently dropped. -/
def elApiStep (acc : List TimestampedWord) (wi : Json) : Prog (List TimestampedWord) := do
  let t0 ← liftE (dGet wi "text" Json.null)
  let text ← (if jTruthy t0 then pure t0 else liftE (dGet wi "word" (Json.str "")))
  let start ← liftE (dGet wi "start" Json.null)
  let stop ← liftE (dGet wi "end" Json.null)
  let sp0 ← liftE (dGet wi "speaker_id" Json.null)
  let speaker ← (if jTruthy sp0 then pure sp0 else liftE (dGet wi "speaker" Json.null))
  let _wordType ← liftE (dGet wi "type" (Json.str ""))
  if jTruthy text && !start.isNull && !stop.isNull then
    Prog.pcatch isValueError
      (do
        let st ← liftE (pyFloat start)
        let en ← liftE (pyFloat stop)
        pure (acc ++ [⟨pyStr text, st, en, speakerOpt speaker, 1⟩]))
      (do
        Prog.log "warning skipping elevenlabs api entry with invalid timestamp"
        pure acc)
  else pure acc

/-- str.startswith on the character list model. -/
def pyStartsWith (s p : String) : Bool := leadEq p.toList s.toList

/-- str.endswith on the character list model. -/
def pyEndsWith (s p : String) : Bool := leadEq p.toList.reverse s.toList.reverse

/-- The comprehension filter of _parse_elevenlabs_api line 311: a word enters
the derived full text unless its text both starts with an opening and ends
with a closing parenthesis. -/
def elApiKeep (w : TimestampedWord) : Bool :=
  !(pyStartsWith w.text "(") || !(pyEndsWith w.text ")")

/-- Body of _parse_elevenlabs_api inside its try (source lines 275-318). -/
def elApiBody (d : Json) : Prog (Option ParsedTranscription) := do
  let words ← liftE (dGet d "words" (Json.arr []))
  if !jTruthy words then do
    Prog.log "error elevenlabs api json has no words list"
    pure none
  else do
    let entries ← liftE (pyIter words)
    let pw ← progFold elApiStep [] entries
    let ft0 ← liftE (dGet d "text" (Json.str ""))
    let fullText :=
      if !jTruthy ft0 && !pw.isEmpty then Json.str (joinTexts (pw.filter elApiKeep)) else ft0
    let lang ← liftE (dGet d "language_code" Json.null)
    Prog.log "elevenlabs api parse finished"
    pure (some ⟨pw, fullText, lang, Json.null⟩)

/-- _parse_elevenlabs_api (source lines 273-323): the body against an except
clause for KeyError, IndexError and TypeError that logs and returns None. -/
def parse_elevenlabs_api (d : Json) : Prog (Option ParsedTranscription) :=
  Prog.pcatch isKeyIndexType (elApiBody d)
    (do
      Prog.log "error exception while parsing elevenlabs api json"
      pure none)

/-- The recognized format tags (the Literal type of parse, source line 31). -/
inductive SourceFormat : Type where
  | elevenlabs
  | whisper
  | deepgram
  | assemblyai
  | soniox
  | elevenlabs_api
deriving DecidableEq

/-- Adapter selection of parse (source lines 41-46). -/
def dispatch (d : Json) : SourceFormat → Prog (Option ParsedTranscription)
  | SourceFormat.elevenlabs => parse_elevenlabs d
  | SourceFormat.elevenlabs_api => parse_elevenlabs_api d
  | SourceFormat.soniox => parse_soniox d
  | SourceFormat.whisper => parse_whisper d
  | SourceFormat.deepgram => parse_deepgram d
  | SourceFormat.assemblyai => parse_assemblyai d

/-- len(result.full_text or ...) computed by the success log at source line
52; it raises TypeError when an adapter passed a truthy non-sized provider
value through as the full text. -/
def successLen (t : ParsedTranscription) : Except PyExc Nat :=
  jLen (if jTruthy t.full_text then t.full_text else Json.str "")

/-- parse (source lines 31-59): log, dispatch inside a try catching every
exception; on a result the success log touches the word count and full text
length, on None a failure log; any exception is logged and becomes None. -/
def parseProg (d : Json) (f : SourceFormat) : Prog (Option ParsedTranscription) := do
  Prog.log "starting parse"
  Prog.pcatch (fun _ => true)
    (do
      let result ← dispatch d f
      match result with
      | some t => do
          let _n ← liftE (successLen t)
          Prog.log "parse finished"
          pure (some t)
      | none => do
          Prog.log "parse did not return a valid result"
          pure none)
    (do
      Prog.log "error while parsing json"
      pure none)

/-- The parse entry point as called with the default console logger: run the
parse program over the caller data object and extract the returned value. -/
def parse (d : Json) (f : SourceFormat) : Option ParsedTranscription :=
  match (runPM consoleSink (parseProg d f) (d, [])).1 with
  | Except.ok r => r
  | Except.error _ => none


/-- Pure characterization of the dispatcher result: the adapter result when
it neither raised nor returned None and the success log computed its lengths,
None in every other case. -/
def parseP (d : Json) (f : SourceFormat) : Option ParsedTranscription :=
  match runP (dispatch d f) with
  | Except.error _ => none
  | Except.ok none => none
  | Except.ok (some t) =>
      match successLen t with
      | Except.error _ => none
      | Except.ok _ => some t

theorem runP_parseProg (d : Json) (f : SourceFormat) :
    runP (parseProg d f) = Except.ok (parseP d f) := by
  unfold parseProg parseP
  rw [runP_seq, runP_pcatch]
  cases hd : runP (dispatch d f) with
  | error e => rw [runP_bind_err _ hd]; rfl
  | ok r =>
      rw [runP_bind_ok _ hd]
      cases r with
      | none => rfl
      | some t =>
          cases hs : successLen t with
          | error e2 =>
              have hb : runP (liftE (successLen t)) = Except.error e2 := by
                rw [runP_liftE, hs]
              rw [runP_bind_err _ hb]
              simp only [hs, runP_seq, runP_pureI]
              rfl
          | ok n =>
              have hb : runP (liftE (successLen t)) = Except.ok n := by
                rw [runP_liftE, hs]
              rw [runP_bind_ok _ hb]
              simp only [hs, runP_seq, runP_pureI]

theorem parse_eq_parseP (d : Json) (f : SourceFormat) : parse d f = parseP d f := by
  unfold parse
  rw [runPM_fst, runP_parseProg]

theorem parseP_err {d : Json} {f : SourceFormat} {e : PyExc}
    (hd : runP (dispatch d f) = Except.error e) : parseP d f = none := by
  unfold parseP; rw [hd]

theorem parseP_ok_none {d : Json} {f : SourceFormat}
    (hd : runP (dispatch d f) = Except.ok none) : parseP d f = none := by
  unfold parseP; rw [hd]

theorem parseP_ok_some {d : Json} {f : SourceFormat} {t : ParsedTranscription}
    (hd : runP (dispatch d f) = Except.ok (some t)) :
    parseP d f =
      (match successLen t with
       | Except.error _ => none
       | Except.ok _ => some t) := by
  unfold parseP; rw [hd]

theorem parse_some_dispatch {d : Json} {f : SourceFormat} {t : ParsedTranscription}
    (h : parse d f = some t) : runP (dispatch d f) = Except.ok (some t) := by
  rw [parse_eq_parseP] at h
  cases hd : runP (dispatch d f) with
  | error e => rw [parseP_err hd] at h; cases h
  | ok r =>
      cases r with
      | none => rw [parseP_ok_none hd] at h; cases h
      | some t2 =>
          rw [parseP_ok_some hd] at h
          cases hs : successLen t2 with
          | error e2 => rw [hs] at h; cases h
          | ok n =>
              rw [hs] at h
              simp only [Option.some.injEq] at h
              rw [h]

/-- C9: for every input JSON object and format tag, two runs of parse produce
identical results, and the result does not depend on which logging sink (or
none) is injected, nor on the sink state it starts in: every run returns
exactly Except.ok (parse d f), so logging never alters the parsed data. -/
theorem C9_logging_never_alters_result (d : Json) (f : SourceFormat) (k : Sink)
    (x : Json) (s : k.St) :
    (runPM k (parseProg d f) (x, s)).1 = Except.ok (parse d f) := by
  rw [runPM_fst, runP_parseProg, parse_eq_parseP]

/-- C10: for every input JSON object and format tag, parse leaves the input
object unchanged: running the parse program over the caller data object under
any log sink returns a final state whose data component is the input itself. -/
theorem C10_input_object_unchanged (d : Json) (f : SourceFormat) (k : Sink) (s : k.St) :
    ((runPM k (parseProg d f) (d, s)).2).1 = d :=
  runPM_data k (parseProg d f) (d, s)

/-- C1: for every JSON object and recognized format tag, parse never raises:
the run always ends in Except.ok carrying the returned value, and whenever
the selected adapter raises any exception the dispatcher converts it to a
null result. -/
theorem C1_exceptions_contained (d : Json) (f : SourceFormat) :
    (runPM consoleSink (parseProg d f) (d, [])).1 = Except.ok (parse d f) ∧
    (∀ e : PyExc, runP (dispatch d f) = Except.error e → parse d f = none) := by
  constructor
  · rw [runPM_fst, runP_parseProg, parse_eq_parseP]
  · intro e he
    rw [parse_eq_parseP]
    exact parseP_err he

/-- A words value that is not iterable: the elevenlabs adapter raises a
TypeError on it, which the dispatcher converts to a null result. -/
def c1Bad : Json := Json.obj [("words", Json.num 5)]

/-- Witness for C1: on the concrete input with a non-iterable words field the
adapter raises TypeError and parse returns null. -/
theorem C1_exceptions_contained_witness : parse c1Bad SourceFormat.elevenlabs = none :=
  (C1_exceptions_contained c1Bad SourceFormat.elevenlabs).2 PyExc.typeError rfl

/-- A Deepgram payload whose word entry carries both the word and the
punctuated_word fields. -/
def dgBoth : Json :=
  Json.obj [("results", Json.obj [("channels", Json.arr [Json.obj [("alternatives",
    Json.arr [Json.obj [("words", Json.arr [Json.obj [("word", Json.str "hello"),
      ("punctuated_word", Json.str "Hello,"), ("start", Json.num 0),
      ("end", Json.num 1)]])]])]])])]

/-- C2: the claim says the punctuated_word value is preferred, and the inline
comment at source line 138 says the same, but the code passes word as the
first key and punctuated_word only as the fallback default, so on an entry
carrying both fields the resulting word text is the plain word value hello,
not the punctuated value. -/
theorem C2_deepgram_prefers_plain_word :
    ∃ t, parse dgBoth SourceFormat.deepgram = some t ∧
      t.words.map TimestampedWord.text = ["hello"] :=
  ⟨⟨[⟨"hello", 0, 1, none, 1⟩], Json.str "hello", Json.null, Json.null⟩, rfl, rfl⟩

/-- C7: parsing a completed Soniox payload with an empty token list yields the
explicit empty transcription rather than null, while a Soniox input whose
tokens value is missing or falsy and whose status is anything other than
completed yields null. -/
theorem C7_soniox_empty_completed :
    parse (Json.obj [("status", Json.str "completed"), ("tokens", Json.arr [])])
      SourceFormat.soniox = some ⟨[], Json.str "", Json.null, Json.null⟩ ∧
    (∀ kvs : List (String × Json),
      jTruthy (jGetD (Json.obj kvs) "tokens" (Json.arr [])) = false →
      pyEqStr (jGetD (Json.obj kvs) "status" Json.null) "completed" = false →
      parse (Json.obj kvs) SourceFormat.soniox = none) := by
  constructor
  · rfl
  · intro kvs hnt hst
    rw [parse_eq_parseP]
    apply parseP_ok_none
    show runP (parse_soniox (Json.obj kvs)) = Except.ok none
    unfold parse_soniox sonioxBody
    rw [runP_pcatch]
    simp only [runP_bindI, runP_liftE, runP_log, dGet, runP_seq, runP_pureI, hnt, hst,
      Bool.not_false, if_true, Bool.false_eq_true, if_false]

/-- Witness for C7: a Soniox payload with no tokens key and a processing
status parses to null. -/
theorem C7_soniox_empty_completed_witness :
    parse (Json.obj [("status", Json.str "processing")]) SourceFormat.soniox = none :=
  C7_soniox_empty_completed.2 [("status", Json.str "processing")] rfl rfl

theorem jTruthy_str_empty : jTruthy (Json.str "") = false := rfl

theorem jTruthy_null : jTruthy Json.null = false := rfl

theorem joinTexts_nil : joinTexts [] = "" := rfl

theorem elevenP_join (kvs : List (String × Json)) (t : ParsedTranscription)
    (hnt : lookupJ kvs "text" = none)
    (hp : parse (Json.obj kvs) SourceFormat.elevenlabs = some t) :
    t.full_text = Json.str (joinTexts t.words) := by
  have hd := parse_some_dispatch hp
  rw [show dispatch (Json.obj kvs) SourceFormat.elevenlabs =
      parse_elevenlabs (Json.obj kvs) from rfl] at hd
  unfold parse_elevenlabs at hd
  simp only [runP_bindI, runP_liftE, runP_log, dGet, jGetD, hnt, Option.getD_none,
    runP_seq, runP_pureI, jTruthy_str_empty, Bool.not_false, Bool.true_and] at hd
  cases hw : pyIter ((lookupJ kvs "words").getD (Json.arr [])) with
  | error e => simp only [hw] at hd; exact Except.noConfusion hd
  | ok entries =>
      simp only [hw] at hd
      cases hf : runP (progFold elevenStep [] entries) with
      | error e => simp only [hf] at hd; exact Except.noConfusion hd
      | ok pw =>
          simp only [hf] at hd
          simp only [Except.ok.injEq, Option.some.injEq] at hd
          rw [← hd]
          cases h2 : pw.isEmpty with
          | false => simp only [h2, Bool.not_false, if_true]
          | true =>
              have h3 : pw = [] := List.isEmpty_iff.mp h2
              subst h3
              rfl

theorem whisperP_join (kvs : List (String × Json)) (t : ParsedTranscription)
    (hnt : lookupJ kvs "text" = none)
    (hp : parse (Json.obj kvs) SourceFormat.whisper = some t) :
    t.full_text = Json.str (joinTexts t.words) := by
  have hd := parse_some_dispatch hp
  rw [show dispatch (Json.obj kvs) SourceFormat.whisper =
      parse_whisper (Json.obj kvs) from rfl] at hd
  unfold parse_whisper at hd
  simp only [runP_bindI, runP_liftE, runP_log, dGet, jGetD, hnt, Option.getD_none,
    runP_seq, runP_pureI] at hd
  cases hc : runP (whisperCollect (Json.obj kvs)) with
  | error e => simp only [hc] at hd; exact Except.noConfusion hd
  | ok wwl =>
      simp only [hc] at hd
      cases hE : wwl.isEmpty with
      | true =>
          simp only [hE, if_pos] at hd
          simp only [runP_bindI, runP_liftE, runP_log, runP_seq, runP_pureI, jTruthy_null,
            Bool.false_eq_true, if_false] at hd
          exact Option.noConfusion (Except.ok.inj hd)
      | false =>
          simp only [hE, Bool.false_eq_true, if_false] at hd
          simp only [runP_bindI, runP_liftE, runP_log, runP_seq, runP_pureI,
            jTruthy_str_empty, Bool.not_false, Bool.true_and] at hd
          cases hf : runP (progFold whisperStep [] wwl) with
          | error e => simp only [hf] at hd; exact Except.noConfusion hd
          | ok pw =>
              simp only [hf, Except.ok.injEq, Option.some.injEq] at hd
              rw [← hd]
              cases h2 : pw.isEmpty with
              | false => simp only [h2, Bool.not_false, if_true]
              | true =>
                  have h3 : pw = [] := List.isEmpty_iff.mp h2
                  subst h3
                  rfl

/-- C3: for every input object without a top level text key, when parse
returns a transcription for the formats whose adapters the claim cites
(elevenlabs and whisper), its full text is exactly the texts of the
successfully parsed words joined with one ASCII space in original order. -/
theorem C3_full_text_join (kvs : List (String × Json)) (f : SourceFormat)
    (t : ParsedTranscription)
    (hf : f = SourceFormat.elevenlabs ∨ f = SourceFormat.whisper)
    (hnt : lookupJ kvs "text" = none)
    (hp : parse (Json.obj kvs) f = some t) :
    t.full_text = Json.str (String.intercalate " " (t.words.map TimestampedWord.text)) := by
  cases hf with
  | inl h => subst h; exact elevenP_join kvs t hnt hp
  | inr h => subst h; exact whisperP_join kvs t hnt hp

/-- A whisper payload with two word entries and no top level text. -/
def c3In : List (String × Json) :=
  [("words", Json.arr [
    Json.obj [("word", Json.str "hello"), ("start", Json.num 0), ("end", Json.num 1)],
    Json.obj [("word", Json.str "world"), ("start", Json.num 1), ("end", Json.num 2)]])]

/-- The transcription parse returns for c3In. -/
def c3Out : ParsedTranscription :=
  ⟨[⟨"hello", 0, 1, none, 1⟩, ⟨"world", 1, 2, none, 1⟩],
    Json.str "hello world", Json.null, Json.null⟩

/-- Witness for C3: on the concrete two word whisper input the parse result
exists and its full text is the space join of its word texts. -/
theorem C3_full_text_join_witness :
    parse (Json.obj c3In) SourceFormat.whisper = some c3Out ∧
    c3Out.full_text =
      Json.str (String.intercalate " " (c3Out.words.map TimestampedWord.text)) :=
  ⟨rfl, C3_full_text_join c3In SourceFormat.whisper c3Out (Or.inr rfl) rfl rfl⟩

theorem pyFloat_ok_not_null {j : Json} {q : ℚ} (h : pyFloat j = Except.ok q) :
    j.isNull = false := by
  cases j <;> simp_all [pyFloat, Json.isNull]

theorem pyFloat_verr_not_null {j : Json} (h : pyFloat j = Except.error PyExc.valueError) :
    j.isNull = false := by
  cases j <;> simp_all [pyFloat, Json.isNull]

theorem whisperStep_ok (o : List (String × Json)) (acc : List TimestampedWord)
    (tv sv ev : Json) (q r : ℚ)
    (ht : lookupJ o "word" = some tv) (htn : tv.isNull = false)
    (hs : lookupJ o "start" = some sv) (hq : pyFloat sv = Except.ok q)
    (he : lookupJ o "end" = some ev) (hr : pyFloat ev = Except.ok r) :
    runP (whisperStep acc (Json.obj o)) =
      Except.ok (acc ++ [⟨pyStr tv, q, r, none, 1⟩]) := by
  have hsn : sv.isNull = false := pyFloat_ok_not_null hq
  have hen : ev.isNull = false := pyFloat_ok_not_null hr
  unfold whisperStep
  simp only [runP_bindI, runP_liftE, runP_log, dGet, jGetD, ht, hs, he, Option.getD_some,
    runP_seq, runP_pureI, htn, hsn, hen, Bool.not_false, Bool.and_self, Bool.true_and, if_pos]
  rw [runP_pcatch]
  simp only [runP_bindI, runP_liftE, hq, hr, runP_pureI]

theorem whisperStep_skip (o : List (String × Json)) (acc : List TimestampedWord)
    (tv sv ev : Json)
    (ht : lookupJ o "word" = some tv) (htn : tv.isNull = false)
    (hs : lookupJ o "start" = some sv)
    (hq : pyFloat sv = Except.error PyExc.valueError)
    (he : lookupJ o "end" = some ev) (hen : ev.isNull = false) :
    runP (whisperStep acc (Json.obj o)) = Except.ok acc := by
  have hsn : sv.isNull = false := pyFloat_verr_not_null hq
  unfold whisperStep
  simp only [runP_bindI, runP_liftE, runP_log, dGet, jGetD, ht, hs, he, Option.getD_some,
    runP_seq, runP_pureI, htn, hsn, hen, Bool.not_false, Bool.and_self, Bool.true_and, if_pos]
  rw [runP_pcatch]
  simp only [runP_bindI, runP_liftE, runP_log, hq, runP_seq, runP_pureI, isValueError, if_pos]

theorem whisperCollect_top (kvs : List (String × Json)) (xs : List Json)
    (hw : lookupJ kvs "words" = some (Json.arr xs)) :
    runP (whisperCollect (Json.obj kvs)) = Except.ok xs := by
  unfold whisperCollect
  simp only [runP_bindI, runP_liftE, runP_pureI, pyInKey, hw, Option.isSome_some,
    subscriptStr, jIsArr, asArr, if_pos]

/-- Values on which the success log length computation cannot raise: sized
values, or falsy ones replaced by the empty string before len. -/
def lenSafe : Json → Bool
  | Json.str _ => true
  | Json.arr _ => true
  | Json.obj _ => true
  | j => !jTruthy j

theorem successLen_ok_of_lenSafe (t : ParsedTranscription)
    (h : lenSafe t.full_text = true) : ∃ n, successLen t = Except.ok n := by
  unfold successLen
  by_cases htr : jTruthy t.full_text = true
  · rw [if_pos htr]
    cases hj : t.full_text with
    | str s => exact ⟨s.length, rfl⟩
    | arr l => exact ⟨l.length, rfl⟩
    | obj l => exact ⟨l.length, rfl⟩
    | null => rw [hj] at htr; cases htr
    | bool b => rw [hj] at h htr; simp [lenSafe, jTruthy] at h htr; rw [htr] at h; cases h
    | num q => rw [hj] at h htr; simp [lenSafe, htr] at h
  · rw [if_neg htr]
    exact ⟨0, rfl⟩

theorem parse_of_dispatch_ok {d : Json} {f : SourceFormat} {t : ParsedTranscription} {n : Nat}
    (hd : runP (dispatch d f) = Except.ok (some t)) (hs : successLen t = Except.ok n) :
    parse d f = some t := by
  rw [parse_eq_parseP, parseP_ok_some hd, hs]

/-- C5: a Whisper words list of three entries whose middle entry has a
non-numeric start (and well-formed first and third entries) parses to a
transcription containing exactly the two words built from entries one and
three: the corrupt entry is skipped and does not make the parse null. -/
theorem C5_corrupt_entry_skipped (kvs o1 o2 o3 : List (String × Json))
    (t1 s1 e1v t2 s2 e2v t3 s3 e3v : Json) (q1 r1 q3 r3 : ℚ)
    (hw : lookupJ kvs "words" = some (Json.arr [Json.obj o1, Json.obj o2, Json.obj o3]))
    (hlen : lenSafe (jGetD (Json.obj kvs) "text" (Json.str "")) = true)
    (h1t : lookupJ o1 "word" = some t1) (h1n : t1.isNull = false)
    (h1s : lookupJ o1 "start" = some s1) (h1q : pyFloat s1 = Except.ok q1)
    (h1e : lookupJ o1 "end" = some e1v) (h1r : pyFloat e1v = Except.ok r1)
    (h2t : lookupJ o2 "word" = some t2) (h2n : t2.isNull = false)
    (h2s : lookupJ o2 "start" = some s2)
    (h2q : pyFloat s2 = Except.error PyExc.valueError)
    (h2e : lookupJ o2 "end" = some e2v) (h2en : e2v.isNull = false)
    (h3t : lookupJ o3 "word" = some t3) (h3n : t3.isNull = false)
    (h3s : lookupJ o3 "start" = some s3) (h3q : pyFloat s3 = Except.ok q3)
    (h3e : lookupJ o3 "end" = some e3v) (h3r : pyFloat e3v = Except.ok r3) :
    ∃ t, parse (Json.obj kvs) SourceFormat.whisper = some t ∧
      t.words = [⟨pyStr t1, q1, r1, none, 1⟩, ⟨pyStr t3, q3, r3, none, 1⟩] := by
  have hc := whisperCollect_top kvs _ hw
  have hst1 := whisperStep_ok o1 [] t1 s1 e1v q1 r1 h1t h1n h1s h1q h1e h1r
  have hst2 := whisperStep_skip o2 [⟨pyStr t1, q1, r1, none, 1⟩] t2 s2 e2v
    h2t h2n h2s h2q h2e h2en
  have hst3 := whisperStep_ok o3 [⟨pyStr t1, q1, r1, none, 1⟩] t3 s3 e3v q3 r3
    h3t h3n h3s h3q h3e h3r
  have hfold : runP (progFold whisperStep [] [Json.obj o1, Json.obj o2, Json.obj o3]) =
      Except.ok [⟨pyStr t1, q1, r1, none, 1⟩, ⟨pyStr t3, q3, r3, none, 1⟩] := by
    simp only [runP_fold_cons, runP_fold_nil, hst1, hst2, hst3, List.nil_append,
      List.cons_append]
  have hdisp : runP (dispatch (Json.obj kvs) SourceFormat.whisper) =
      Except.ok (some ⟨[⟨pyStr t1, q1, r1, none, 1⟩, ⟨pyStr t3, q3, r3, none, 1⟩],
        (if (!jTruthy ((lookupJ kvs "text").getD (Json.str ""))) = true
         then Json.str (joinTexts [⟨pyStr t1, q1, r1, none, 1⟩, ⟨pyStr t3, q3, r3, none, 1⟩])
         else (lookupJ kvs "text").getD (Json.str "")),
        (lookupJ kvs "language").getD Json.null, Json.null⟩) := by
    show runP (parse_whisper (Json.obj kvs)) = _
    unfold parse_whisper
    simp only [runP_bindI, runP_liftE, runP_log, runP_seq, runP_pureI, hc, hfold,
      dGet, jGetD, List.isEmpty_cons, Bool.false_eq_true, if_false,
      Bool.not_false, Bool.and_true]
  set ft0 : Json := (lookupJ kvs "text").getD (Json.str "") with hft0
  have hlenS : lenSafe (if (!jTruthy ft0) = true
      then Json.str (joinTexts [⟨pyStr t1, q1, r1, none, 1⟩, ⟨pyStr t3, q3, r3, none, 1⟩])
      else ft0) = true := by
    by_cases hj : (!jTruthy ft0) = true
    · rw [if_pos hj]; rfl
    · rw [if_neg hj]
      rw [hft0]
      simp only [jGetD] at hlen
      exact hlen
  obtain ⟨n, hsl⟩ := successLen_ok_of_lenSafe
    ⟨[⟨pyStr t1, q1, r1, none, 1⟩, ⟨pyStr t3, q3, r3, none, 1⟩],
      (if (!jTruthy ft0) = true
       then Json.str (joinTexts [⟨pyStr t1, q1, r1, none, 1⟩, ⟨pyStr t3, q3, r3, none, 1⟩])
       else ft0),
      (lookupJ kvs "language").getD Json.null, Json.null⟩ hlenS
  exact ⟨_, parse_of_dispatch_ok hdisp hsl, rfl⟩

/-- Witness for C5: concrete three entry whisper input whose middle entry has
the non-numeric start bad; the parse result holds exactly the words hello and
world. -/
theorem C5_corrupt_entry_skipped_witness :
    ∃ t, parse (Json.obj [("words", Json.arr [
        Json.obj [("word", Json.str "hello"), ("start", Json.num 0), ("end", Json.num 1)],
        Json.obj [("word", Json.str "oops"), ("start", Json.str "bad"), ("end", Json.num 2)],
        Json.obj [("word", Json.str "world"), ("start", Json.num 2), ("end", Json.num 3)]])])
      SourceFormat.whisper = some t ∧
      t.words = [⟨"hello", 0, 1, none, 1⟩, ⟨"world", 2, 3, none, 1⟩] :=
  C5_corrupt_entry_skipped
    [("words", Json.arr [
        Json.obj [("word", Json.str "hello"), ("start", Json.num 0), ("end", Json.num 1)],
        Json.obj [("word", Json.str "oops"), ("start", Json.str "bad"), ("end", Json.num 2)],
        Json.obj [("word", Json.str "world"), ("start", Json.num 2), ("end", Json.num 3)]])]
    [("word", Json.str "hello"), ("start", Json.num 0), ("end", Json.num 1)]
    [("word", Json.str "oops"), ("start", Json.str "bad"), ("end", Json.num 2)]
    [("word", Json.str "world"), ("start", Json.num 2), ("end", Json.num 3)]
    (Json.str "hello") (Json.num 0) (Json.num 1)
    (Json.str "oops") (Json.str "bad") (Json.num 2)
    (Json.str "world") (Json.num 2) (Json.num 3)
    0 1 2 3
    rfl rfl rfl rfl rfl rfl rfl rfl rfl rfl rfl rfl rfl rfl rfl rfl rfl rfl rfl rfl

/-- C6: a Soniox token with start_ms 1500 and end_ms 2500, and an AssemblyAI
word entry with start 1500 and end 2500, both produce a word whose start time
is 1.5 seconds and whose end time is 2.5 seconds: the two adapters divide the
provider millisecond timestamps by 1000. -/
theorem C6_ms_divided_by_1000
    (o : List (String × Json)) (acc : List TimestampedWord) (tv sv ev : Json)
    (ht : lookupJ o "text" = some tv) (htt : jTruthy tv = true)
    (hs : lookupJ o "start_ms" = some sv) (hq : pyFloat sv = Except.ok 1500)
    (he : lookupJ o "end_ms" = some ev) (hr : pyFloat ev = Except.ok 2500)
    (hif : lookupJ o "is_final" = none)
    (hcf : lookupJ o "confidence" = none)
    (o2 : List (String × Json)) (acc2 : List TimestampedWord) (tv2 sv2 ev2 : Json)
    (ht2 : lookupJ o2 "text" = some tv2) (htn2 : tv2.isNull = false)
    (hs2 : lookupJ o2 "start" = some sv2) (hq2 : pyFloat sv2 = Except.ok 1500)
    (he2 : lookupJ o2 "end" = some ev2) (hr2 : pyFloat ev2 = Except.ok 2500) :
    (∃ w, runP (sonioxStep acc (Json.obj o)) = Except.ok (acc ++ [w]) ∧
      w.start_time = 3/2 ∧ w.end_time = 5/2) ∧
    (∃ w, runP (assemblyStep acc2 (Json.obj o2)) = Except.ok (acc2 ++ [w]) ∧
      w.start_time = 3/2 ∧ w.end_time = 5/2) := by
  have hsn : sv.isNull = false := pyFloat_ok_not_null hq
  have hen : ev.isNull = false := pyFloat_ok_not_null hr
  have hsn2 : sv2.isNull = false := pyFloat_ok_not_null hq2
  have hen2 : ev2.isNull = false := pyFloat_ok_not_null hr2
  constructor
  · refine ⟨⟨pyStr tv, 1500 / 1000, 2500 / 1000,
      speakerOpt ((lookupJ o "speaker").getD Json.null), 1⟩, ?_, by norm_num, by norm_num⟩
    unfold sonioxStep
    simp only [runP_bindI, runP_liftE, runP_log, dGet, jGetD, ht, hs, he, hif, hcf,
      Option.getD_some, Option.getD_none, Option.isSome_none, pyInKey,
      runP_seq, runP_pureI, htt, hsn, hen, Bool.not_false, Bool.and_self, Bool.true_and,
      Bool.false_and, Bool.false_eq_true, if_false, if_pos]
    rw [runP_pcatch]
    simp only [runP_bindI, runP_liftE, hq, hr, Json.isNull, if_pos, runP_pureI]
  · refine ⟨⟨pyStr tv2, 1500 / 1000, 2500 / 1000,
      speakerOpt ((lookupJ o2 "speaker").getD Json.null), 1⟩, ?_, by norm_num, by norm_num⟩
    unfold assemblyStep
    simp only [runP_bindI, runP_liftE, runP_log, dGet, jGetD, ht2, hs2, he2,
      Option.getD_some, runP_seq, runP_pureI, htn2, hsn2, hen2, Bool.not_false,
      Bool.and_self, Bool.true_and, if_pos]
    rw [runP_pcatch]
    simp only [runP_bindI, runP_liftE, hq2, hr2, runP_pureI]

/-- Witness for C6: concrete soniox token and assemblyai entry with the
millisecond timestamps 1500 and 2500 produce words at 1.5 and 2.5 seconds. -/
theorem C6_ms_divided_by_1000_witness :
    (∃ w, runP (sonioxStep []
        (Json.obj [("text", Json.str "hi"), ("start_ms", Json.num 1500),
          ("end_ms", Json.num 2500)])) = Except.ok ([] ++ [w]) ∧
      w.start_time = 3/2 ∧ w.end_time = 5/2) ∧
    (∃ w, runP (assemblyStep []
        (Json.obj [("text", Json.str "yo"), ("start", Json.num 1500),
          ("end", Json.num 2500)])) = Except.ok ([] ++ [w]) ∧
      w.start_time = 3/2 ∧ w.end_time = 5/2) :=
  C6_ms_divided_by_1000
    [("text", Json.str "hi"), ("start_ms", Json.num 1500), ("end_ms", Json.num 2500)]
    [] (Json.str "hi") (Json.num 1500) (Json.num 2500)
    rfl rfl rfl rfl rfl rfl rfl rfl
    [("text", Json.str "yo"), ("start", Json.num 1500), ("end", Json.num 2500)]
    [] (Json.str "yo") (Json.num 1500) (Json.num 2500)
    rfl rfl rfl rfl rfl rfl

/-- A pcatch whose handler returns None can only produce a transcription that
its body produced. -/
theorem runP_pcatch_opt {c : PyExc → Bool} {p h : Prog (Option ParsedTranscription)}
    {t : ParsedTranscription} (hh : runP h = Except.ok none)
    (hr : runP (Prog.pcatch c p h) = Except.ok (some t)) :
    runP p = Except.ok (some t) := by
  rw [runP_pcatch] at hr
  cases hp : runP p with
  | ok a => rw [hp] at hr; exact hr
  | error e =>
      by_cases hc : c e = true
      · simp [hp, hc, hh] at hr
      · simp [hp, hc] at hr

/-- The text alias selection of _parse_elevenlabs_api line 285 on a dict
entry: the text value when truthy, else the word value, else empty. -/
def elApiTextSel (o : List (String × Json)) : Json :=
  if jTruthy ((lookupJ o "text").getD Json.null) then (lookupJ o "text").getD Json.null
  else (lookupJ o "word").getD (Json.str "")

/-- The speaker alias selection of _parse_elevenlabs_api line 288. -/
def elApiSpeakerSel (o : List (String × Json)) : Json :=
  if jTruthy ((lookupJ o "speaker_id").getD Json.null) then (lookupJ o "speaker_id").getD Json.null
  else (lookupJ o "speaker").getD Json.null

/-- Any well-formed ElevenLabs API entry, whatever its type field holds
(including audio_event), is appended to the word list by the loop body. -/
theorem elApiStep_retains (o : List (String × Json)) (acc : List TimestampedWord)
    (sv ev : Json) (q r : ℚ)
    (htt : jTruthy (elApiTextSel o) = true)
    (hs : lookupJ o "start" = some sv) (hq : pyFloat sv = Except.ok q)
    (he : lookupJ o "end" = some ev) (hr : pyFloat ev = Except.ok r) :
    runP (elApiStep acc (Json.obj o)) =
      Except.ok (acc ++ [⟨pyStr (elApiTextSel o), q, r,
        speakerOpt (elApiSpeakerSel o), 1⟩]) := by
  have hsn : sv.isNull = false := pyFloat_ok_not_null hq
  have hen : ev.isNull = false := pyFloat_ok_not_null hr
  unfold elApiStep
  simp only [runP_bindI, runP_liftE, runP_log, dGet, jGetD, hs, he, Option.getD_some,
    runP_seq, runP_pureI] at *
  by_cases h0 : jTruthy ((lookupJ o "text").getD Json.null) = true
  · rw [if_pos h0]
    unfold elApiTextSel at htt ⊢
    rw [if_pos h0] at htt ⊢
    unfold elApiSpeakerSel
    simp only [runP_bindI, runP_liftE, runP_pureI, runP_log, htt, hsn, hen,
      Bool.not_false, Bool.and_self, Bool.true_and, if_pos]
    by_cases hsp : jTruthy ((lookupJ o "speaker_id").getD Json.null) = true
    · rw [if_pos hsp, if_pos hsp]
      simp only [runP_bindI, runP_liftE, runP_pureI]
      rw [runP_pcatch]
      simp only [runP_bindI, runP_liftE, hq, hr, runP_pureI]
    · rw [if_neg hsp, if_neg hsp]
      simp only [runP_bindI, runP_liftE, runP_pureI, dGet, jGetD]
      rw [runP_pcatch]
      simp only [runP_bindI, runP_liftE, hq, hr, runP_pureI]
  · rw [if_neg h0]
    unfold elApiTextSel at htt ⊢
    rw [if_neg h0] at htt ⊢
    unfold elApiSpeakerSel
    simp only [runP_bindI, runP_liftE, runP_pureI, runP_log, dGet, jGetD, htt, hsn, hen,
      Bool.not_false, Bool.and_self, Bool.true_and, if_pos]
    by_cases hsp : jTruthy ((lookupJ o "speaker_id").getD Json.null) = true
    · rw [if_pos hsp, if_pos hsp]
      simp only [runP_bindI, runP_liftE, runP_pureI]
      rw [runP_pcatch]
      simp only [runP_bindI, runP_liftE, hq, hr, runP_pureI]
    · rw [if_neg hsp, if_neg hsp]
      simp only [runP_bindI, runP_liftE, runP_pureI, dGet, jGetD]
      rw [runP_pcatch]
      simp only [runP_bindI, runP_liftE, hq, hr, runP_pureI]

/-- With no top level text, the ElevenLabs API full text joins exactly the
words whose text is not wrapped in parentheses. -/
theorem elApiP_join (kvs : List (String × Json)) (t : ParsedTranscription)
    (hnt : lookupJ kvs "text" = none)
    (hp : parse (Json.obj kvs) SourceFormat.elevenlabs_api = some t) :
    t.full_text = Json.str (joinTexts (t.words.filter elApiKeep)) := by
  have hd := parse_some_dispatch hp
  rw [show dispatch (Json.obj kvs) SourceFormat.elevenlabs_api =
      parse_elevenlabs_api (Json.obj kvs) from rfl] at hd
  unfold parse_elevenlabs_api at hd
  have hb := runP_pcatch_opt (by rfl) hd
  unfold elApiBody at hb
  simp only [runP_bindI, runP_liftE, runP_log, dGet, jGetD, hnt, Option.getD_none,
    runP_seq, runP_pureI, jTruthy_str_empty, Bool.not_false, Bool.true_and] at hb
  cases hW : jTruthy ((lookupJ kvs "words").getD (Json.arr [])) with
  | false =>
      simp only [hW, Bool.not_false, if_pos] at hb
      exact Option.noConfusion (Except.ok.inj hb)
  | true =>
      simp only [hW, Bool.not_true, Bool.false_eq_true, if_false] at hb
      simp only [runP_bindI, runP_liftE, runP_log, runP_seq, runP_pureI,
        jTruthy_str_empty, Bool.not_false, Bool.true_and] at hb
      cases hI : pyIter ((lookupJ kvs "words").getD (Json.arr [])) with
      | error e => simp only [hI] at hb; exact Except.noConfusion hb
      | ok entries =>
          simp only [hI] at hb
          cases hf : runP (progFold elApiStep [] entries) with
          | error e => simp only [hf] at hb; exact Except.noConfusion hb
          | ok pw =>
              simp only [hf, Except.ok.injEq, Option.some.injEq] at hb
              rw [← hb]
              cases h2 : pw.isEmpty with
              | false => simp only [h2, Bool.not_false, if_true]
              | true =>
                  have h3 : pw = [] := List.isEmpty_iff.mp h2
                  subst h3
                  rfl

/-- C8: for the ElevenLabs API adapter, every well-formed entry is retained
as a word regardless of its type field (audio_event included), and when the
input has no top level text the derived full text joins exactly the retained
words whose text does not both start with an opening parenthesis and end with
a closing one. -/
theorem C8_audio_events_and_filter
    (o : List (String × Json)) (acc : List TimestampedWord) (sv ev : Json) (q r : ℚ)
    (htt : jTruthy (elApiTextSel o) = true)
    (hs : lookupJ o "start" = some sv) (hq : pyFloat sv = Except.ok q)
    (he : lookupJ o "end" = some ev) (hr : pyFloat ev = Except.ok r)
    (kvs : List (String × Json)) (t : ParsedTranscription)
    (hnt : lookupJ kvs "text" = none)
    (hp : parse (Json.obj kvs) SourceFormat.elevenlabs_api = some t) :
    runP (elApiStep acc (Json.obj o)) =
      Except.ok (acc ++ [⟨pyStr (elApiTextSel o), q, r,
        speakerOpt (elApiSpeakerSel o), 1⟩]) ∧
    t.full_text = Json.str (String.intercalate " "
      ((t.words.filter elApiKeep).map TimestampedWord.text)) :=
  ⟨elApiStep_retains o acc sv ev q r htt hs hq he hr, elApiP_join kvs t hnt hp⟩

/-- An audio event entry of the ElevenLabs API format. -/
def c8Event : List (String × Json) :=
  [("text", Json.str "(laughs)"), ("start", Json.num 0), ("end", Json.num 1),
    ("type", Json.str "audio_event")]

/-- An ElevenLabs API payload holding that audio event and a plain word. -/
def c8In : List (String × Json) :=
  [("words", Json.arr [Json.obj c8Event,
    Json.obj [("text", Json.str "hey"), ("start", Json.num 1), ("end", Json.num 2)]])]

/-- The transcription parse returns for c8In: the audio event is retained in
words while the derived full text holds only hey. -/
def c8Out : ParsedTranscription :=
  ⟨[⟨"(laughs)", 0, 1, none, 1⟩, ⟨"hey", 1, 2, none, 1⟩],
    Json.str "hey", Json.null, Json.null⟩

/-- Witness for C8: the concrete audio event entry is appended as a word, and
the concrete parse result joins only the non parenthesized word. -/
theorem C8_audio_events_and_filter_witness :
    runP (elApiStep [] (Json.obj c8Event)) =
      Except.ok ([] ++ [⟨pyStr (elApiTextSel c8Event), 0, 1,
        speakerOpt (elApiSpeakerSel c8Event), 1⟩]) ∧
    c8Out.full_text = Json.str (String.intercalate " "
      ((c8Out.words.filter elApiKeep).map TimestampedWord.text)) :=
  C8_audio_events_and_filter c8Event [] (Json.num 0) (Json.num 1) 0 1
    rfl rfl rfl rfl rfl c8In c8Out rfl rfl

/-- With positive fuel the digit list is never empty. -/
theorem natDigsAux_ne_nil (fuel n : Nat) : natDigsAux (fuel + 1) n ≠ [] := by
  unfold natDigsAux
  by_cases h : n < 10
  · simp [h]
  · simp [h]

/-- Decimal renderings of naturals are non-empty. -/
theorem natRepr_ne_empty (n : Nat) : natRepr n ≠ "" := by
  unfold natRepr
  intro h
  have h2 := congrArg String.data h
  simp at h2
  exact natDigsAux_ne_nil n n h2

/-- Decimal renderings of integers are non-empty. -/
theorem intRepr_ne_empty (i : Int) : intRepr i ≠ "" := by
  unfold intRepr
  split
  · intro h
    have h2 := congrArg String.data h
    simp at h2
  · exact natRepr_ne_empty _

/-- Renderings of rationals are non-empty. -/
theorem ratRepr_ne_empty (q : ℚ) : ratRepr q ≠ "" := by
  unfold ratRepr
  split
  · exact intRepr_ne_empty _
  · intro h
    have h2 := congrArg String.data h
    simp at h2

/-- str of a truthy value is never the empty string. -/
theorem pyStr_ne_empty {j : Json} (h : jTruthy j = true) : pyStr j ≠ "" := by
  cases j with
  | null => exact absurd h (by simp [jTruthy])
  | bool b =>
      cases b with
      | false => exact absurd h (by simp [jTruthy])
      | true => simp [pyStr]
  | num q => exact ratRepr_ne_empty q
  | str s =>
      have h2 : s ≠ "" := by simpa [jTruthy] using h
      simpa [pyStr] using h2
  | arr l => simp [pyStr]
  | obj l => simp [pyStr]

/-- The soniox loop body only ever appends words with non-empty text: the
loop requires a truthy text value before constructing a word. -/
theorem sonioxStep_text_ne (e : Json) (acc ws : List TimestampedWord)
    (hstep : runP (sonioxStep acc e) = Except.ok ws)
    (hacc : ∀ w ∈ acc, w.text ≠ "") : ∀ w ∈ ws, w.text ≠ "" := by
  cases e with
  | obj o =>
      unfold sonioxStep at hstep
      simp only [runP_bindI, runP_liftE, runP_log, dGet, jGetD, pyInKey, runP_seq,
        runP_pureI] at hstep
      cases hc1 : ((lookupJ o "is_final").isSome &&
          !jTruthy ((lookupJ o "is_final").getD (Json.bool false))) with
      | true =>
          simp only [hc1, if_pos] at hstep
          obtain rfl : acc = ws := Except.ok.inj hstep
          exact hacc
      | false =>
          simp only [hc1, Bool.false_eq_true, if_false] at hstep
          cases hc2 : (jTruthy ((lookupJ o "text").getD (Json.str "")) &&
              !((lookupJ o "start_ms").getD Json.null).isNull &&
              !((lookupJ o "end_ms").getD Json.null).isNull) with
          | false =>
              simp only [hc2, Bool.false_eq_true, if_false] at hstep
              obtain rfl : acc = ws := Except.ok.inj hstep
              exact hacc
          | true =>
              simp only [hc2, if_pos] at hstep
              rw [runP_pcatch] at hstep
              simp only [runP_bindI, runP_liftE, runP_seq, runP_pureI, runP_log] at hstep
              cases hq1 : pyFloat ((lookupJ o "start_ms").getD Json.null) with
              | error e1 =>
                  rw [hq1] at hstep
                  by_cases hv : isValueError e1 = true
                  · simp only [hv, if_pos] at hstep
                    obtain rfl : acc = ws := Except.ok.inj hstep
                    exact hacc
                  · simp only [hv, Bool.false_eq_true, if_false] at hstep
                    exact Except.noConfusion hstep
              | ok q1 =>
                  rw [hq1] at hstep
                  cases hq2 : pyFloat ((lookupJ o "end_ms").getD Json.null) with
                  | error e2 =>
                      rw [hq2] at hstep
                      by_cases hv : isValueError e2 = true
                      · simp only [hv, if_pos] at hstep
                        obtain rfl : acc = ws := Except.ok.inj hstep
                        exact hacc
                      · simp only [hv, Bool.false_eq_true, if_false] at hstep
                        exact Except.noConfusion hstep
                  | ok q2 =>
                      rw [hq2] at hstep
                      cases hcf : (if ((lookupJ o "confidence").getD Json.null).isNull = true
                          then Except.ok (1 : ℚ)
                          else pyFloat ((lookupJ o "confidence").getD Json.null)) with
                      | error e3 =>
                          rw [hcf] at hstep
                          by_cases hv : isValueError e3 = true
                          · simp only [hv, if_pos] at hstep
                            obtain rfl : acc = ws := Except.ok.inj hstep
                            exact hacc
                          · simp only [hv, Bool.false_eq_true, if_false] at hstep
                            exact Except.noConfusion hstep
                      | ok cfv =>
                          rw [hcf] at hstep
                          obtain rfl : acc ++ [⟨pyStr ((lookupJ o "text").getD (Json.str "")),
                              q1 / 1000, q2 / 1000,
                              speakerOpt ((lookupJ o "speaker").getD Json.null), cfv⟩] = ws :=
                            Except.ok.inj hstep
                          intro w hw
                          rcases List.mem_append.mp hw with hmem | hmem
                          · exact hacc w hmem
                          · have hweq := List.mem_singleton.mp hmem
                            subst hweq
                            have htx : jTruthy ((lookupJ o "text").getD (Json.str "")) = true := by
                              have h3 := hc2
                              simp only [Bool.and_eq_true] at h3
                              exact h3.1.1
                            exact pyStr_ne_empty htx
  | null =>
      unfold sonioxStep at hstep
      simp only [runP_bindI, runP_liftE, dGet] at hstep
      exact Except.noConfusion hstep
  | bool b =>
      unfold sonioxStep at hstep
      simp only [runP_bindI, runP_liftE, dGet] at hstep
      exact Except.noConfusion hstep
  | num q =>
      unfold sonioxStep at hstep
      simp only [runP_bindI, runP_liftE, dGet] at hstep
      exact Except.noConfusion hstep
  | str s =>
      unfold sonioxStep at hstep
      simp only [runP_bindI, runP_liftE, dGet] at hstep
      exact Except.noConfusion hstep
  | arr l =>
      unfold sonioxStep at hstep
      simp only [runP_bindI, runP_liftE, dGet] at hstep
      exact Except.noConfusion hstep

/-- The guarded construction of the elevenlabs api loop body appends only a
word with the truthy text it was given. -/
theorem elApiCatch_ne (textv sv ev spv : Json) (acc ws : List TimestampedWord)
    (htx : jTruthy textv = true)
    (hacc : ∀ w ∈ acc, w.text ≠ "")
    (h : runP (Prog.pcatch isValueError
        (do
          let st ← liftE (pyFloat sv)
          let en ← liftE (pyFloat ev)
          pure (acc ++ [⟨pyStr textv, st, en, speakerOpt spv, 1⟩]))
        (do
          Prog.log "warning skipping elevenlabs api entry with invalid timestamp"
          pure acc)) = Except.ok ws) :
    ∀ w ∈ ws, w.text ≠ "" := by
  rw [runP_pcatch] at h
  simp only [runP_bindI, runP_liftE, runP_seq, runP_pureI, runP_log] at h
  cases hq1 : pyFloat sv with
  | error e1 =>
      rw [hq1] at h
      by_cases hv : isValueError e1 = true
      · simp only [hv, if_pos] at h
        obtain rfl : acc = ws := Except.ok.inj h
        exact hacc
      · simp only [hv, Bool.false_eq_true, if_false] at h
        exact Except.noConfusion h
  | ok q1 =>
      rw [hq1] at h
      cases hq2 : pyFloat ev with
      | error e2 =>
          rw [hq2] at h
          by_cases hv : isValueError e2 = true
          · simp only [hv, if_pos] at h
            obtain rfl : acc = ws := Except.ok.inj h
            exact hacc
          · simp only [hv, Bool.false_eq_true, if_false] at h
            exact Except.noConfusion h
      | ok q2 =>
          rw [hq2] at h
          obtain rfl : acc ++ [⟨pyStr textv, q1, q2, speakerOpt spv, 1⟩] = ws :=
            Except.ok.inj h
          intro w hw
          rcases List.mem_append.mp hw with hmem | hmem
          · exact hacc w hmem
          · have hweq := List.mem_singleton.mp hmem
            subst hweq
            exact pyStr_ne_empty htx

/-- The elevenlabs api loop body only ever appends words with non-empty
text. -/
theorem elApiStep_text_ne (e : Json) (acc ws : List TimestampedWord)
    (hstep : runP (elApiStep acc e) = Except.ok ws)
    (hacc : ∀ w ∈ acc, w.text ≠ "") : ∀ w ∈ ws, w.text ≠ "" := by
  cases e with
  | obj o =>
      unfold elApiStep at hstep
      simp only [runP_bindI, runP_liftE, runP_log, dGet, jGetD, runP_seq, runP_pureI] at hstep
      by_cases h0 : jTruthy ((lookupJ o "text").getD Json.null) = true
      · simp only [h0, if_pos, runP_pureI, Bool.true_and] at hstep
        by_cases hsp : jTruthy ((lookupJ o "speaker_id").getD Json.null) = true
        · simp only [hsp, if_pos, runP_pureI] at hstep
          cases hc2 : (!((lookupJ o "start").getD Json.null).isNull &&
              !((lookupJ o "end").getD Json.null).isNull) with
          | false =>
              simp only [hc2, Bool.false_eq_true, if_false] at hstep
              obtain rfl : acc = ws := Except.ok.inj hstep
              exact hacc
          | true =>
              simp only [hc2, if_pos] at hstep
              exact elApiCatch_ne _ _ _ _ acc ws h0 hacc hstep
        · simp only [hsp, Bool.false_eq_true, if_false, runP_liftE, dGet, jGetD] at hstep
          cases hc2 : (!((lookupJ o "start").getD Json.null).isNull &&
              !((lookupJ o "end").getD Json.null).isNull) with
          | false =>
              simp only [hc2, Bool.false_eq_true, if_false] at hstep
              obtain rfl : acc = ws := Except.ok.inj hstep
              exact hacc
          | true =>
              simp only [hc2, if_pos] at hstep
              exact elApiCatch_ne _ _ _ _ acc ws h0 hacc hstep
      · simp only [h0, Bool.false_eq_true, if_false, runP_liftE, dGet, jGetD] at hstep
        by_cases hsp : jTruthy ((lookupJ o "speaker_id").getD Json.null) = true
        · simp only [hsp, if_pos, runP_pureI] at hstep
          cases hc2 : (jTruthy ((lookupJ o "word").getD (Json.str "")) &&
              !((lookupJ o "start").getD Json.null).isNull &&
              !((lookupJ o "end").getD Json.null).isNull) with
          | false =>
              simp only [hc2, Bool.false_eq_true, if_false] at hstep
              obtain rfl : acc = ws := Except.ok.inj hstep
              exact hacc
          | true =>
              simp only [hc2, if_pos] at hstep
              have htx : jTruthy ((lookupJ o "word").getD (Json.str "")) = true := by
                have h3 := hc2
                simp only [Bool.and_eq_true] at h3
                exact h3.1.1
              exact elApiCatch_ne _ _ _ _ acc ws htx hacc hstep
        · simp only [hsp, Bool.false_eq_true, if_false, runP_liftE, dGet, jGetD] at hstep
          cases hc2 : (jTruthy ((lookupJ o "word").getD (Json.str "")) &&
              !((lookupJ o "start").getD Json.null).isNull &&
              !((lookupJ o "end").getD Json.null).isNull) with
          | false =>
              simp only [hc2, Bool.false_eq_true, if_false] at hstep
              obtain rfl : acc = ws := Except.ok.inj hstep
              exact hacc
          | true =>
              simp only [hc2, if_pos] at hstep
              have htx : jTruthy ((lookupJ o "word").getD (Json.str "")) = true := by
                have h3 := hc2
                simp only [Bool.and_eq_true] at h3
                exact h3.1.1
              exact elApiCatch_ne _ _ _ _ acc ws htx hacc hstep
  | null =>
      unfold elApiStep at hstep
      simp only [runP_bindI, runP_liftE, dGet] at hstep
      exact Except.noConfusion hstep
  | bool b =>
      unfold elApiStep at hstep
      simp only [runP_bindI, runP_liftE, dGet] at hstep
      exact Except.noConfusion hstep
  | num q =>
      unfold elApiStep at hstep
      simp only [runP_bindI, runP_liftE, dGet] at hstep
      exact Except.noConfusion hstep
  | str s =>
      unfold elApiStep at hstep
      simp only [runP_bindI, runP_liftE, dGet] at hstep
      exact Except.noConfusion hstep
  | arr l =>
      unfold elApiStep at hstep
      simp only [runP_bindI, runP_liftE, dGet] at hstep
      exact Except.noConfusion hstep

/-- A loop whose body preserves non-empty word texts preserves them over any
entry list. -/
theorem progFold_text_ne
    (step : List TimestampedWord → Json → Prog (List TimestampedWord))
    (hstep : ∀ e acc ws, runP (step acc e) = Except.ok ws →
      (∀ w ∈ acc, w.text ≠ "") → ∀ w ∈ ws, w.text ≠ "")
    (entries : List Json) :
    ∀ acc ws, runP (progFold step acc entries) = Except.ok ws →
      (∀ w ∈ acc, w.text ≠ "") → ∀ w ∈ ws, w.text ≠ "" := by
  induction entries with
  | nil =>
      intro acc ws h hacc
      rw [runP_fold_nil] at h
      obtain rfl : acc = ws := Except.ok.inj h
      exact hacc
  | cons x xs ih =>
      intro acc ws h hacc
      rw [runP_fold_cons] at h
      cases hx : runP (step acc x) with
      | error e => rw [hx] at h; exact Except.noConfusion h
      | ok acc2 =>
          rw [hx] at h
          exact ih acc2 ws h (hstep x acc acc2 hx hacc)

/-- Every word of a transcription the soniox adapter returns has non-empty
text. -/
theorem sonioxP_text_ne (kvs : List (String × Json)) (t : ParsedTranscription)
    (hp : parse (Json.obj kvs) SourceFormat.soniox = some t) :
    ∀ w ∈ t.words, w.text ≠ "" := by
  have hd := parse_some_dispatch hp
  rw [show dispatch (Json.obj kvs) SourceFormat.soniox =
      parse_soniox (Json.obj kvs) from rfl] at hd
  unfold parse_soniox at hd
  have hb := runP_pcatch_opt (by rfl) hd
  unfold sonioxBody at hb
  simp only [runP_bindI, runP_liftE, runP_log, dGet, jGetD, runP_seq, runP_pureI] at hb
  cases hT : jTruthy ((lookupJ kvs "tokens").getD (Json.arr [])) with
  | false =>
      simp only [hT, Bool.not_false, if_pos] at hb
      simp only [runP_bindI, runP_liftE, runP_log, runP_seq, runP_pureI] at hb
      by_cases hst : pyEqStr ((lookupJ kvs "status").getD Json.null) "completed" = true
      · simp only [hst, if_pos] at hb
        simp only [runP_seq, runP_pureI] at hb
        have ht2 := Option.some.inj (Except.ok.inj hb)
        rw [← ht2]
        intro w hw
        exact absurd hw (List.not_mem_nil w)
      · simp only [hst, Bool.false_eq_true, if_false, runP_pureI] at hb
        exact Option.noConfusion (Except.ok.inj hb)
  | true =>
      simp only [hT, Bool.not_true, Bool.false_eq_true, if_false] at hb
      simp only [runP_bindI, runP_liftE, runP_log, runP_seq, runP_pureI] at hb
      cases hI : pyIter ((lookupJ kvs "tokens").getD (Json.arr [])) with
      | error e => simp only [hI] at hb; exact Except.noConfusion hb
      | ok toks =>
          simp only [hI] at hb
          cases hF : runP (progFold sonioxStep [] toks) with
          | error e => simp only [hF] at hb; exact Except.noConfusion hb
          | ok pw =>
              simp only [hF] at hb
              cases hL : runP (sonioxLang toks) with
              | error e => simp only [hL] at hb; exact Except.noConfusion hb
              | ok lang =>
                  simp only [hL] at hb
                  have ht2 := Option.some.inj (Except.ok.inj hb)
                  rw [← ht2]
                  exact progFold_text_ne sonioxStep sonioxStep_text_ne toks [] pw hF
                    (fun w hw => absurd hw (List.not_mem_nil w))

/-- Every word of a transcription the elevenlabs api adapter returns has
non-empty text. -/
theorem elApiP_text_ne (kvs : List (String × Json)) (t : ParsedTranscription)
    (hp : parse (Json.obj kvs) SourceFormat.elevenlabs_api = some t) :
    ∀ w ∈ t.words, w.text ≠ "" := by
  have hd := parse_some_dispatch hp
  rw [show dispatch (Json.obj kvs) SourceFormat.elevenlabs_api =
      parse_elevenlabs_api (Json.obj kvs) from rfl] at hd
  have hb := runP_pcatch_opt (by rfl) hd
  unfold elApiBody at hb
  simp only [runP_bindI, runP_liftE, runP_log, dGet, jGetD, runP_seq, runP_pureI] at hb
  cases hW : jTruthy ((lookupJ kvs "words").getD (Json.arr [])) with
  | false =>
      simp only [hW, Bool.not_false, if_pos] at hb
      simp only [runP_seq, runP_pureI] at hb
      exact Option.noConfusion (Except.ok.inj hb)
  | true =>
      simp only [hW, Bool.not_true, Bool.false_eq_true, if_false] at hb
      simp only [runP_bindI, runP_liftE, runP_log, runP_seq, runP_pureI] at hb
      cases hI : pyIter ((lookupJ kvs "words").getD (Json.arr [])) with
      | error e => simp only [hI] at hb; exact Except.noConfusion hb
      | ok entries =>
          simp only [hI] at hb
          cases hF : runP (progFold elApiStep [] entries) with
          | error e => simp only [hF] at hb; exact Except.noConfusion hb
          | ok pw =>
              simp only [hF] at hb
              have ht2 := Option.some.inj (Except.ok.inj hb)
              rw [← ht2]
              exact progFold_text_ne elApiStep elApiStep_text_ne entries [] pw hF
                (fun w hw => absurd hw (List.not_mem_nil w))

/-- An elevenlabs payload whose single entry has empty text and reversed
timestamps. -/
def c4In : Json := Json.obj [("words", Json.arr
  [Json.obj [("text", Json.str ""), ("start", Json.num 1), ("end", Json.num 0)]])]

/-- C4 counterexample: the claimed data model invariant fails on the code:
the elevenlabs adapter checks only that the text field is not None and never
compares timestamps, so parsing an entry with empty text, start 1 and end 0
returns a word with empty text and end time strictly below start time. -/
theorem C4_invariant_counterexample :
    ∃ t w, parse c4In SourceFormat.elevenlabs = some t ∧ w ∈ t.words ∧
      w.text = "" ∧ w.end_time < w.start_time :=
  ⟨⟨[⟨"", 1, 0, none, 1⟩], Json.str "", Json.null, Json.null⟩, ⟨"", 1, 0, none, 1⟩,
    rfl, List.mem_singleton.mpr rfl, rfl, by norm_num⟩

/-- C4 amended: only the soniox and elevenlabs api adapters guarantee the
non-empty text part of the invariant, through their truthiness checks; no
adapter enforces start time at most end time, and the other four adapters
can return words with empty text. -/
theorem C4_amended_nonempty_text (d : Json) (f : SourceFormat) (t : ParsedTranscription)
    (hf : f = SourceFormat.soniox ∨ f = SourceFormat.elevenlabs_api)
    (hp : parse d f = some t) : ∀ w ∈ t.words, w.text ≠ "" := by
  cases hf with
  | inl h =>
      subst h
      cases d with
      | obj kvs => exact sonioxP_text_ne kvs t hp
      | null =>
          rw [parse_eq_parseP, parseP_err (by rfl)] at hp
          exact Option.noConfusion hp
      | bool b =>
          rw [parse_eq_parseP, parseP_err (by rfl)] at hp
          exact Option.noConfusion hp
      | num q =>
          rw [parse_eq_parseP, parseP_err (by rfl)] at hp
          exact Option.noConfusion hp
      | str s =>
          rw [parse_eq_parseP, parseP_err (by rfl)] at hp
          exact Option.noConfusion hp
      | arr l =>
          rw [parse_eq_parseP, parseP_err (by rfl)] at hp
          exact Option.noConfusion hp
  | inr h =>
      subst h
      cases d with
      | obj kvs => exact elApiP_text_ne kvs t hp
      | null =>
          rw [parse_eq_parseP, parseP_err (by rfl)] at hp
          exact Option.noConfusion hp
      | bool b =>
          rw [parse_eq_parseP, parseP_err (by rfl)] at hp
          exact Option.noConfusion hp
      | num q =>
          rw [parse_eq_parseP, parseP_err (by rfl)] at hp
          exact Option.noConfusion hp
      | str s =>
          rw [parse_eq_parseP, parseP_err (by rfl)] at hp
          exact Option.noConfusion hp
      | arr l =>
          rw [parse_eq_parseP, parseP_err (by rfl)] at hp
          exact Option.noConfusion hp

/-- A soniox payload with one well-formed token. -/
def c4wIn : Json := Json.obj [("tokens", Json.arr [Json.obj
  [("text", Json.str "hi"), ("start_ms", Json.num 1500), ("end_ms", Json.num 2500)]])]

/-- The transcription parse returns for c4wIn. -/
def c4wOut : ParsedTranscription :=
  ⟨[⟨"hi", (1500 : ℚ) / 1000, (2500 : ℚ) / 1000, none, 1⟩],
    Json.str "hi", Json.null, Json.null⟩

/-- Witness for the amended C4: the word of the concrete soniox parse result
has non-empty text. -/
theorem C4_amended_nonempty_text_witness :
    (⟨"hi", (1500 : ℚ) / 1000, (2500 : ℚ) / 1000, none, 1⟩ : TimestampedWord).text ≠ "" :=
  C4_amended_nonempty_text c4wIn SourceFormat.soniox c4wOut (Or.inl rfl) rfl
    ⟨"hi", (1500 : ℚ) / 1000, (2500 : ℚ) / 1000, none, 1⟩ (List.mem_singleton.mpr rfl)
